import Mathlib

/-!
Verification development for the Mesh+ Workshop geometry pipeline
(src/ransowere.js and the near-duplicate draft src/unnamed/part_000).

The pipeline has three stages:
  (1) box -> solid conversion      (Meshplus.cubeToCSG, src/ransowere.js 78-103)
  (2) boolean combination          (CSG.js library, contract given by spec section 4.3)
  (3) solid -> voxel reconstruction (csgToCubes, src/ransowere.js 113-165
                                     and src/unnamed/part_000 46-101)

Real-number geometry from the source is embedded over the rationals where the
computation is evaluated concretely, and over the reals for the 4x4 transform
matrices (which involve trigonometry).  Fallible or possibly non-terminating
code (the BSP build recursion, the voxel grid scan loops) is embedded with an
explicit fuel argument returning an Option: a result of none means the
computation has not finished within the given fuel.

Mathlib marks the arithmetic operations on Rat irreducible; the attribute
command below restores the default reducibility so that concrete runs of the
translated code reduce definitionally (the kernel is unaffected by
reducibility attributes).
-/

set_option allowUnsafeReducibility true

attribute [local semireducible] Rat.add Rat.sub Rat.mul Rat.inv

set_option maxRecDepth 400000

namespace Meshplus

/-- A 3-component vector, the shape used throughout the plugin for
vertices, normals, box corners and rotation triples. -/
structure Vec3 (K : Type) where
  x : K
  y : K
  z : K
deriving DecidableEq

def vadd (a b : Vec3 ℚ) : Vec3 ℚ := ⟨a.x + b.x, a.y + b.y, a.z + b.z⟩

def vsub (a b : Vec3 ℚ) : Vec3 ℚ := ⟨a.x - b.x, a.y - b.y, a.z - b.z⟩

def vneg (a : Vec3 ℚ) : Vec3 ℚ := ⟨-a.x, -a.y, -a.z⟩

def vscale (t : ℚ) (a : Vec3 ℚ) : Vec3 ℚ := ⟨t * a.x, t * a.y, t * a.z⟩

/-- Dot product, CSG.Vector.prototype.dot. -/
def vdot (a b : Vec3 ℚ) : ℚ := a.x * b.x + a.y * b.y + a.z * b.z

/-- Cross product, CSG.Vector.prototype.cross. -/
def vcross (a b : Vec3 ℚ) : Vec3 ℚ :=
  ⟨a.y * b.z - a.z * b.y, a.z * b.x - a.x * b.z, a.x * b.y - a.y * b.x⟩

/-- Linear interpolation between two vertex positions,
CSG.Vertex.prototype.interpolate. -/
def vlerp (a b : Vec3 ℚ) (t : ℚ) : Vec3 ℚ := vadd a (vscale t (vsub b a))

/-- Floor square root of a natural number, computed by a linear scan (a
structurally recursive equivalent of Nat.sqrt, chosen so that concrete runs
reduce inside the proof checker). -/
def natSqrtLin (n : ℕ) : ℕ :=
  ((List.range (n + 1)).filter fun k => k * k ≤ n).length - 1

/-- Rational square root, numerator and denominator separately (the same
computation as Rat.sqrt).  It is exact whenever the argument is the square
of a rational, which is the case for every squared polygon-normal length
arising in the axis-aligned concrete scenarios evaluated below — exactly the
inputs on which the source's floating-point sqrt is also exact. -/
def ratSqrt (q : ℚ) : ℚ :=
  mkRat (Int.ofNat (natSqrtLin q.num.toNat)) (natSqrtLin q.den)

/-- Unit vector, CSG.Vector.prototype.unit: divide by the Euclidean length. -/
def vunit (v : Vec3 ℚ) : Vec3 ℚ := vscale (1 / ratSqrt (vdot v v)) v

/-- EPSILON, the shared floating-point tolerance, 1e-5
(src/ransowere.js line 6 and src/unnamed/part_000 line 50). -/
def EPSILON : ℚ := 1 / 100000

/-- A plane in normal-offset form, CSG.Plane: unit normal and signed offset w
with the plane given by normal dot v = w. -/
structure Plane where
  normal : Vec3 ℚ
  w : ℚ
deriving DecidableEq

/-- Plane through three points, CSG.Plane.fromPoints:
n = ((b-a) x (c-a)).unit(), w = n dot a. -/
def planeFromPoints (a b c : Vec3 ℚ) : Plane :=
  let n := vunit (vcross (vsub b a) (vsub c a))
  ⟨n, vdot n a⟩

/-- Flipped plane, CSG.Plane.prototype.flip. -/
def Plane.flip (p : Plane) : Plane := ⟨vneg p.normal, -p.w⟩

/-- A polygon: ordered vertex list plus its derived plane, CSG.Polygon.
Vertex normals carried by CSG.js are dropped: no code path read by this
development ever consults them (they are only flipped and interpolated). -/
structure Polygon where
  vertices : List (Vec3 ℚ)
  plane : Plane
deriving DecidableEq

/-- Polygon constructor, new CSG.Polygon(vertices): the plane is recomputed
from the first three vertices.  Lists shorter than three vertices never reach
this constructor in the translated code (fragment lists are length-checked
first); they receive a dummy plane. -/
def mkPolygon (vs : List (Vec3 ℚ)) : Polygon :=
  match vs with
  | a :: b :: c :: _ => ⟨vs, planeFromPoints a b c⟩
  | _ => ⟨vs, ⟨⟨0, 0, 0⟩, 0⟩⟩

/-- Flipped polygon, CSG.Polygon.prototype.flip: reverse the winding and flip
the plane. -/
def Polygon.flip (p : Polygon) : Polygon := ⟨p.vertices.reverse, p.plane.flip⟩

/-- Output of CSG.Plane.prototype.splitPolygon: the coplanar-front,
coplanar-back, front and back fragment lists for one polygon. -/
structure SplitOut where
  cf : List Polygon
  cb : List Polygon
  f : List Polygon
  b : List Polygon

/-- Classification of one vertex against a splitting plane with tolerance
EPSILON: 0 = coplanar, 1 = front, 2 = back. -/
def splitVertexType (pl : Plane) (v : Vec3 ℚ) : ℕ :=
  let t := vdot pl.normal v - pl.w
  if t < -EPSILON then 2 else if t > EPSILON then 1 else 0

/-- The vertex loop of splitPolygon's spanning case, walking the edge i ->
(i+1) mod n for every index: a vertex not strictly behind goes to the front
fragment, one not strictly in front goes to the back fragment, and an edge
whose endpoint types are front and back gets an interpolated crossing vertex
appended to both. -/
def spanLoop (pl : Plane) (vs : List (Vec3 ℚ)) (types : List ℕ) :
    List ℕ → List (Vec3 ℚ) × List (Vec3 ℚ)
  | [] => ([], [])
  | i :: rest =>
    match spanLoop pl vs types rest with
    | (facc, bacc) =>
      let j := (i + 1) % vs.length
      let ti := types.getD i 0
      let tj := types.getD j 0
      let vi := vs.getD i ⟨0, 0, 0⟩
      let vj := vs.getD j ⟨0, 0, 0⟩
      -- The source tests (ti | tj) == SPANNING.  Both types lie in {0, 1, 2},
      -- so their bitwise or is 3 exactly when one is FRONT (1) and the other
      -- BACK (2), which is exactly when their sum is 3; the sum form is used
      -- because it reduces efficiently inside the proof checker.
      let cross : List (Vec3 ℚ) :=
        if ti + tj == 3 then
          [vlerp vi vj ((pl.w - vdot pl.normal vi) / vdot pl.normal (vsub vj vi))]
        else []
      ((if ti ≠ 2 then [vi] else []) ++ cross ++ facc,
       (if ti ≠ 1 then [vi] else []) ++ cross ++ bacc)

/-- Modelled from the spec: CSG.Plane.prototype.splitPolygon (the BSP
splitting step of spec section 4.3, supplied by the CSG.js library which is
not part of src/).  A wholly coplanar polygon goes to coplanar-front or
coplanar-back by comparing normals, a wholly front or back polygon is passed
through, and a spanning polygon is split into a front and a back fragment by
spanLoop, fragments with fewer than three vertices being dropped. -/
def splitPoly (pl : Plane) (p : Polygon) : SplitOut :=
  let types := p.vertices.map (splitVertexType pl)
  let hasF := types.any (· == 1)
  let hasB := types.any (· == 2)
  if ¬hasF ∧ ¬hasB then
    if vdot pl.normal p.plane.normal > 0 then ⟨[p], [], [], []⟩ else ⟨[], [p], [], []⟩
  else if hasF ∧ ¬hasB then ⟨[], [], [p], []⟩
  else if hasB ∧ ¬hasF then ⟨[], [], [], [p]⟩
  else
    match spanLoop pl p.vertices types (List.range p.vertices.length) with
    | (fv, bv) =>
      ⟨[], [],
       if fv.length ≥ 3 then [mkPolygon fv] else [],
       if bv.length ≥ 3 then [mkPolygon bv] else []⟩

/-- Modelled from the spec: splitting a polygon list for clipping
(CSG.Node.prototype.clipPolygons routes coplanar-front fragments to the
front list and coplanar-back fragments to the back list), polygon by polygon
in order. -/
def clipSplit (pl : Plane) : List Polygon → List Polygon × List Polygon
  | [] => ([], [])
  | p :: ps =>
    match splitPoly pl p, clipSplit pl ps with
    | s, (fr, bk) => (s.cf ++ s.f ++ fr, s.cb ++ s.b ++ bk)

/-- Modelled from the spec: splitting a polygon list while building
(CSG.Node.prototype.build keeps both coplanar lists at the node), polygon by
polygon in order. -/
def buildSplit (pl : Plane) : List Polygon → List Polygon × List Polygon × List Polygon
  | [] => ([], [], [])
  | p :: ps =>
    match splitPoly pl p, buildSplit pl ps with
    | s, (cop, fr, bk) => (s.cf ++ s.cb ++ cop, s.f ++ fr, s.b ++ bk)

/-- Modelled from the spec: a BSP tree node (CSG.Node).  The null constructor
stands for an absent child pointer; a fresh unbuilt node is
mk none [] null null. -/
inductive BNode where
  | null : BNode
  | mk (plane : Option Plane) (polys : List Polygon) (front : BNode) (back : BNode)

/-- Modelled from the spec: CSG.Node.prototype.invert — flip every polygon
and the plane, invert both children and swap them. -/
def BNode.invert : BNode → BNode
  | .null => .null
  | .mk pl ps f b => .mk (pl.map Plane.flip) (ps.map Polygon.flip) b.invert f.invert

/-- Modelled from the spec: CSG.Node.prototype.clipPolygons — remove from the
given list every polygon (fragment) inside this BSP solid.  A node without a
plane returns the list unchanged; polygons reaching an absent back child are
discarded, those reaching an absent front child are kept. -/
def BNode.clipPolygons : BNode → List Polygon → List Polygon
  | .null, ps => ps
  | .mk Option.none _ _ _, ps => ps
  | .mk (Option.some pl) _ f b, ps =>
    match clipSplit pl ps with
    | (frA, bkA) =>
      let fr := f.clipPolygons frA
      let bk := match b with
        | .null => []
        | _ => b.clipPolygons bkA
      fr ++ bk
termination_by structural n => n

/-- Modelled from the spec: CSG.Node.prototype.clipTo — clip every polygon
stored in this tree against the other BSP solid. -/
def BNode.clipTo : BNode → BNode → BNode
  | .null, _ => .null
  | .mk pl ps f b, bsp => .mk pl (bsp.clipPolygons ps) (f.clipTo bsp) (b.clipTo bsp)

/-- Modelled from the spec: CSG.Node.prototype.allPolygons. -/
def BNode.allPolygons : BNode → List Polygon
  | .null => []
  | .mk _ ps f b => ps ++ f.allPolygons ++ b.allPolygons

/-- Modelled from the spec: CSG.Node.prototype.build — insert polygons into
the (possibly already built) tree, choosing the first polygon's plane as the
splitting plane of a fresh node.  The recursion is not structurally
decreasing (splitting can grow the polygon lists), so it takes fuel and
returns none when the fuel runs out. -/
def BNode.build : ℕ → BNode → List Polygon → Option BNode
  | _, n, [] => Option.some n
  | 0, _, _ => Option.none
  | fuel + 1, n, ps@(p0 :: _) =>
    match (match n with
           | .null => (Option.none, ([] : List Polygon), BNode.null, BNode.null)
           | .mk pl0 polys0 f0 b0 => (pl0, polys0, f0, b0)) with
    | (pl0, polys0, f0, b0) =>
      let pl := pl0.getD p0.plane
      match buildSplit pl ps with
      | (cop, fr, bk) =>
        match (match fr with
               | [] => Option.some f0
               | q :: qs => BNode.build fuel f0 (q :: qs)),
              (match bk with
               | [] => Option.some b0
               | q :: qs => BNode.build fuel b0 (q :: qs)) with
        | Option.some fN, Option.some bN =>
          Option.some (.mk (Option.some pl) (polys0 ++ cop) fN bN)
        | _, _ => Option.none

/-- Modelled from the spec: new CSG.Node(polygons). -/
def nodeOfPolys (fuel : ℕ) (ps : List Polygon) : Option BNode :=
  BNode.build fuel .null ps

/-- Modelled from the spec: CSG.prototype.subtract (spec section 4.3,
operator subtract), the standard BSP clipping sequence:
a.invert; a.clipTo(b); b.clipTo(a); b.invert; b.clipTo(a); b.invert;
a.build(b.allPolygons()); a.invert; collect a.allPolygons(). -/
def csgSubtract (fuel : ℕ) (aPolys bPolys : List Polygon) : Option (List Polygon) := do
  let a0 ← nodeOfPolys fuel aPolys
  let b0 ← nodeOfPolys fuel bPolys
  let a1 := a0.invert
  let a2 := a1.clipTo b0
  let b1 := b0.clipTo a2
  let b2 := b1.invert
  let b3 := b2.clipTo a2
  let b4 := b3.invert
  let a3 ← a2.build fuel b4.allPolygons
  let a4 := a3.invert
  return a4.allPolygons

/-- A Blockbench Cube as read and produced by the plugin: the fields the
pipeline reads are from, to (axis-aligned extents), origin (rotation pivot)
and rotation (degrees); name is carried but never read by the geometry.
The keyword-clashing field names from and to are spelled with a prime. -/
structure Cube where
  name : String
  from' : Vec3 ℚ
  to' : Vec3 ℚ
  origin : Vec3 ℚ
  rotation : Vec3 ℚ
deriving DecidableEq

section Matrices

variable {K : Type} [CommRing K]

/-- THREE.Matrix4.makeTranslation: column-vector convention translation. -/
def makeTranslation (x y z : K) : Matrix (Fin 4) (Fin 4) K :=
  !![1, 0, 0, x; 0, 1, 0, y; 0, 0, 1, z; 0, 0, 0, 1]

/-- THREE.Matrix4.makeRotationX, given the cosine and sine of the angle. -/
def makeRotationX (c s : K) : Matrix (Fin 4) (Fin 4) K :=
  !![1, 0, 0, 0; 0, c, -s, 0; 0, s, c, 0; 0, 0, 0, 1]

/-- THREE.Matrix4.makeRotationY, given the cosine and sine of the angle. -/
def makeRotationY (c s : K) : Matrix (Fin 4) (Fin 4) K :=
  !![c, 0, s, 0; 0, 1, 0, 0; -s, 0, c, 0; 0, 0, 0, 1]

/-- THREE.Matrix4.makeRotationZ, given the cosine and sine of the angle. -/
def makeRotationZ (c s : K) : Matrix (Fin 4) (Fin 4) K :=
  !![c, -s, 0, 0; s, c, 0, 0; 0, 0, 1, 0; 0, 0, 0, 1]

/-- Meshplus.getTransformationMatrix (src/ransowere.js 44-72): build
T1 = translation by -pivot, the axis rotations from the rotation triple in
degrees, R = (Rz * Ry) * Rx, T2 = translation by pivot, and return
M = (T2 * R) * T1 (THREE.Matrix4.prototype.multiply post-multiplies).
The cosine and sine of the degree-to-radian conversion are abstracted as the
oracle functions cosD and sinD so the same translation serves both the real
instantiation (with genuine trigonometry) and the rational pipeline (where
every concrete run has zero rotation and never consults them). -/
def getTransformationMatrix (cosD sinD : K → K) (pivot rot : Vec3 K) :
    Matrix (Fin 4) (Fin 4) K :=
  let T1 := makeTranslation (-pivot.x) (-pivot.y) (-pivot.z)
  let Rx := makeRotationX (cosD rot.x) (sinD rot.x)
  let Ry := makeRotationY (cosD rot.y) (sinD rot.y)
  let Rz := makeRotationZ (cosD rot.z) (sinD rot.z)
  let R := (Rz * Ry) * Rx
  let T2 := makeTranslation pivot.x pivot.y pivot.z
  (T2 * R) * T1

end Matrices

/-- Application of a 4x4 affine matrix to a 3D point in homogeneous
coordinates (the effect of CSG.prototype.transform on one vertex). -/
def applyM (M : Matrix (Fin 4) (Fin 4) ℚ) (v : Vec3 ℚ) : Vec3 ℚ :=
  let w : Fin 4 → ℚ := ![v.x, v.y, v.z, 1]
  let r := M.mulVec w
  ⟨r 0, r 1, r 2⟩

/-- Corner i of CSG.cube: center plus radius times +-1 per axis, the sign of
axis a taken from bit a of i (the source masks with i & 1, i & 2, i & 4; the
bits are extracted here by division and remainder, which reduce efficiently
inside the proof checker). -/
def cubeCorner (c r : Vec3 ℚ) (i : ℕ) : Vec3 ℚ :=
  ⟨c.x + r.x * (if i % 2 = 1 then 1 else -1),
   c.y + r.y * (if i / 2 % 2 = 1 then 1 else -1),
   c.z + r.z * (if i / 4 % 2 = 1 then 1 else -1)⟩

/-- Modelled from the spec: CSG.cube (the library constructor used by
Meshplus.cubeToCSG, spec section 4.2 step 2): six quadrilateral faces with
outward normals, each polygon's plane derived from its vertices. -/
def csgCube (c r : Vec3 ℚ) : List Polygon :=
  [[0, 4, 6, 2], [1, 3, 7, 5], [0, 1, 5, 4],
   [2, 6, 7, 3], [0, 2, 3, 1], [4, 5, 7, 6]].map
    (fun idxs => mkPolygon (idxs.map (cubeCorner c r)))

/-- Modelled from the spec: CSG.prototype.translate (spec section 4.2 step 3,
"translate every vertex by center"): move every vertex, carrying each plane
to the translated plane (same normal, offset shifted by normal dot d). -/
def translatePolys (d : Vec3 ℚ) (ps : List Polygon) : List Polygon :=
  ps.map (fun p =>
    ⟨p.vertices.map (vadd · d), ⟨p.plane.normal, p.plane.w + vdot p.plane.normal d⟩⟩)

/-- Modelled from the spec: CSG.prototype.transform (spec section 4.2 step 4):
apply the matrix to every vertex and recompute each face's plane from its
transformed vertices — planes are never cached from the pre-transform state. -/
def transformPolys (M : Matrix (Fin 4) (Fin 4) ℚ) (ps : List Polygon) : List Polygon :=
  ps.map (fun p => mkPolygon (p.vertices.map (applyM M)))

/-- Meshplus.cubeToCSG (src/ransowere.js 78-103): compute the box center and
size, build a CSG cube of radius size/2 at the origin, translate it to the
center, and, only when some rotation component is non-zero, transform every
vertex by the transformation matrix.  The source performs no validation of
the box extents: degenerate boxes are converted like any other. -/
def cubeToCSG (cosD sinD : ℚ → ℚ) (cube : Cube) : List Polygon :=
  let f := cube.from'
  let t := cube.to'
  let center : Vec3 ℚ := ⟨(f.x + t.x) / 2, (f.y + t.y) / 2, (f.z + t.z) / 2⟩
  let size : Vec3 ℚ := ⟨t.x - f.x, t.y - f.y, t.z - f.z⟩
  let base := csgCube ⟨0, 0, 0⟩ ⟨size.x / 2, size.y / 2, size.z / 2⟩
  let placed := translatePolys center base
  if cube.rotation.x ≠ 0 ∨ cube.rotation.y ≠ 0 ∨ cube.rotation.z ≠ 0 then
    transformPolys (getTransformationMatrix cosD sinD cube.origin cube.rotation) placed
  else placed

/-- Axis-aligned bounds used by the voxel scan, with min and max corners. -/
structure VBounds where
  min : Vec3 ℚ
  max : Vec3 ℚ
deriving DecidableEq

/-- The fixed heuristic bounds 0..16 used by csgToCubes when the solid has no
getBounds method (src/ransowere.js 121) and always used by the second draft
(src/unnamed/part_000 54). -/
def defaultBounds : VBounds := ⟨⟨0, 0, 0⟩, ⟨16, 16, 16⟩⟩

/-- Modelled from the spec: the bounding box "recomputed from a Solid's
vertices" (spec section 3), standing in for the library getBounds method
that src/ransowere.js line 121 calls when available. -/
def solidBounds (polys : List Polygon) : VBounds :=
  match polys.flatMap Polygon.vertices with
  | [] => ⟨⟨0, 0, 0⟩, ⟨0, 0, 0⟩⟩
  | v :: rest =>
    rest.foldl (fun bb w =>
      ⟨⟨min bb.min.x w.x, min bb.min.y w.y, min bb.min.z w.z⟩,
       ⟨max bb.max.x w.x, max bb.max.y w.y, max bb.max.z w.z⟩⟩) ⟨v, v⟩

/-- One axis of the voxel scan, for (let x = lo; x < mx; x += step):
the list of loop-variable values, with fuel bounding the number of
iterations.  A result of none means the loop has not finished within the
given fuel — in particular, for step <= 0 and lo < mx no fuel ever
suffices. -/
def loopIter (mx step : ℚ) : ℕ → ℚ → Option (List ℚ)
  | 0, x => if x < mx then Option.none else Option.some []
  | n + 1, x =>
    if x < mx then (loopIter mx step n (x + step)).map (x :: ·) else Option.some []

/-- The ray-polygon test of csgToCubes (src/ransowere.js 131-152): with ray
direction (1,0,0), skip the polygon when |normal dot direction| < EPSILON,
otherwise compute t = (w - normal dot point)/denom and count the polygon when
t > EPSILON.  The intersection point is computed by the source but then used
by no further check — the point-in-polygon test is noted in its comments as
assumed and is not implemented. -/
def hitsRay (c : Vec3 ℚ) (poly : Polygon) : Bool :=
  let denom := poly.plane.normal.x
  if |denom| < EPSILON then false
  else
    let t := (poly.plane.w - vdot poly.plane.normal c) / denom
    t > EPSILON

/-- Number of counted ray-polygon intersections for one sample point
(the intersections counter of csgToCubes). -/
def countIntersections (polys : List Polygon) (c : Vec3 ℚ) : ℕ :=
  polys.countP (hitsRay c)

/-- The body of the innermost voxel loop: sample at the cell center, classify
by parity of the intersection count, and emit a Cube spanning the step cell
when the count is odd (src/ransowere.js 127-160).  New Blockbench cubes carry
the default origin and rotation. -/
def voxelAt (polys : List Polygon) (step x y z : ℚ) : Option Cube :=
  let c : Vec3 ℚ := ⟨x + step / 2, y + step / 2, z + step / 2⟩
  if countIntersections polys c % 2 ≠ 0 then
    Option.some ⟨"CSG Voxel", ⟨x, y, z⟩, ⟨x + step, y + step, z + step⟩,
      ⟨0, 0, 0⟩, ⟨0, 0, 0⟩⟩
  else Option.none

/-- csgToCubes (src/ransowere.js 113-165): choose the scan bounds from the
solid's getBounds result when the library provides one (passed here as gb)
and the fixed default 0..16 otherwise, then scan the grid x-outermost,
z-innermost at the given resolution.  An inner loop only runs when every
outer loop has at least one iteration, so its coordinate list is only
computed in that case; none propagates fuel exhaustion (a loop that has not
terminated), exactly as for step <= 0 with non-empty bounds. -/
def csgToCubes (fuel : ℕ) (polys : List Polygon) (gb : Option VBounds)
    (resolution : ℚ) : Option (List Cube) :=
  let step := resolution
  let bounds := gb.getD defaultBounds
  match loopIter bounds.max.x step fuel bounds.min.x with
  | Option.none => Option.none
  | Option.some xs =>
    match (if xs.isEmpty then Option.some []
           else loopIter bounds.max.y step fuel bounds.min.y) with
    | Option.none => Option.none
    | Option.some ys =>
      match (if xs.isEmpty || ys.isEmpty then Option.some []
             else loopIter bounds.max.z step fuel bounds.min.z) with
      | Option.none => Option.none
      | Option.some zs =>
        Option.some (xs.flatMap fun x => ys.flatMap fun y =>
          zs.filterMap fun z => voxelAt polys step x y z)

/-- The CSG operation selector of the workshop dialog. -/
inductive CSGMode where
  | subtract
  | union
  | intersect
deriving DecidableEq

/-- The geometry portion of executeCSGOperation (src/ransowere.js 175-212,
steps 1-3): convert both boxes, subtract, and voxelize at the requested
resolution, with gb supplied by the library's optional getBounds method on
the result solid. -/
def pipelineVoxels (fuel : ℕ) (cosD sinD : ℚ → ℚ)
    (getB : List Polygon → Option VBounds) (A B : Cube) (res : ℚ) :
    Option (List Cube) := do
  let sA := cubeToCSG cosD sinD A
  let sB := cubeToCSG cosD sinD B
  let result ← csgSubtract fuel sA sB
  csgToCubes fuel result (getB result) res

/-- executeCSGOperation (src/ransowere.js 175-212) acting on the host's
element list: only the subtract mode is implemented (the default branch of
the switch returns with no change), and the edit — removing the two selected
elements and adding the new voxel cubes — happens only after csgToCubes has
returned; when the pipeline produces no result the state is untouched. -/
def executeCSG (fuel : ℕ) (cosD sinD : ℚ → ℚ)
    (getB : List Polygon → Option VBounds) (st : List Cube) (A B : Cube)
    (mode : CSGMode) (res : ℚ) : List Cube :=
  match mode with
  | .subtract =>
    match pipelineVoxels fuel cosD sinD getB A B res with
    | Option.none => st
    | Option.some newCubes =>
      (st.filter fun e => decide (e ≠ A ∧ e ≠ B)) ++ newCubes
  | _ => st

/-- Modelled from the spec: projection onto the plane's dominant axis pair
(spec section 4.4 condition (c)): drop the coordinate axis on which the
plane normal has the largest absolute component. -/
def projectDominant (n v : Vec3 ℚ) : ℚ × ℚ :=
  if |n.x| ≥ |n.y| ∧ |n.x| ≥ |n.z| then (v.y, v.z)
  else if |n.y| ≥ |n.z| then (v.x, v.z)
  else (v.x, v.y)

/-- Modelled from the spec: the 2D even-odd point-in-polygon test required by
spec section 4.4 condition (c): count the polygon edges crossed by a
horizontal ray from the point and test the parity. -/
def pip2D (pts : List (ℚ × ℚ)) (p : ℚ × ℚ) : Bool :=
  let edges := pts.zip (pts.rotate 1)
  (edges.countP fun e =>
    let a := e.1
    let b := e.2
    decide ((a.2 > p.2) ≠ (b.2 > p.2) ∧
      p.1 < a.1 + (p.2 - a.2) * (b.1 - a.1) / (b.2 - a.2))) % 2 = 1

/-- Modelled from the spec: the full intersection-validity test of spec
section 4.4 — the source's two checks (non-parallel ray, t > EPSILON) plus
the mandatory point-in-polygon test of the intersection point after
projecting both the polygon and the point onto the plane's dominant axis
pair. -/
def specHitsRay (c : Vec3 ℚ) (poly : Polygon) : Bool :=
  let denom := poly.plane.normal.x
  if |denom| < EPSILON then false
  else
    let t := (poly.plane.w - vdot poly.plane.normal c) / denom
    if t > EPSILON then
      let ip : Vec3 ℚ := ⟨c.x + t, c.y, c.z⟩
      pip2D (poly.vertices.map (projectDominant poly.plane.normal))
        (projectDominant poly.plane.normal ip)
    else false

/-- Modelled from the spec: the intersection count with the point-in-polygon
condition enforced. -/
def specCountIntersections (polys : List Polygon) (c : Vec3 ℚ) : ℕ :=
  polys.countP (specHitsRay c)

/-- Lexicographic order on sample coordinates, x first, then y, then z —
the iteration order of the csgToCubes triple loop. -/
def vecLexLt (a b : Vec3 ℚ) : Prop :=
  a.x < b.x ∨ (a.x = b.x ∧ (a.y < b.y ∨ (a.y = b.y ∧ a.z < b.z)))

instance (a b : Vec3 ℚ) : Decidable (vecLexLt a b) := by
  unfold vecLexLt; infer_instance

/-- Cosine of an angle given in degrees: THREE.Math.degToRad composed with
the cosine, as used by getTransformationMatrix. -/
noncomputable def cosDeg (θ : ℝ) : ℝ := Real.cos (θ * Real.pi / 180)

/-- Sine of an angle given in degrees. -/
noncomputable def sinDeg (θ : ℝ) : ℝ := Real.sin (θ * Real.pi / 180)

/-- Trigonometry oracle for concrete rational pipeline runs; every concrete
run below has zero rotation, so cubeToCSG never consults it. -/
def z0 : ℚ → ℚ := fun _ => 0

/-- Box A of the spec's concrete subtract scenario: from (0,0,0) to (2,2,2),
no rotation. -/
def boxA : Cube := ⟨"A", ⟨0, 0, 0⟩, ⟨2, 2, 2⟩, ⟨0, 0, 0⟩, ⟨0, 0, 0⟩⟩

/-- Box B of the spec's concrete subtract scenario: from (1,1,1) to (3,3,3),
no rotation. -/
def boxB : Cube := ⟨"B", ⟨1, 1, 1⟩, ⟨3, 3, 3⟩, ⟨0, 0, 0⟩, ⟨0, 0, 0⟩⟩

/-- A degenerate box, from == to on the x axis. -/
def degBox : Cube := ⟨"D", ⟨0, 0, 0⟩, ⟨0, 2, 2⟩, ⟨0, 0, 0⟩, ⟨0, 0, 0⟩⟩

/-- A unit square polygon in the plane x = 1 spanning 0 <= y,z <= 1, used to
exhibit a ray-plane crossing that lies outside the polygon. -/
def sqPoly : Polygon := mkPolygon [⟨1, 0, 0⟩, ⟨1, 1, 0⟩, ⟨1, 1, 1⟩, ⟨1, 0, 1⟩]

/-- Unit bounds 0..1, used as a concrete getBounds result in witnesses. -/
def unitB : VBounds := ⟨⟨0, 0, 0⟩, ⟨1, 1, 1⟩⟩

/-- The single voxel cube emitted when scanning unitB over sqPoly. -/
def voxel000 : Cube :=
  ⟨"CSG Voxel", ⟨0, 0, 0⟩, ⟨1, 1, 1⟩, ⟨0, 0, 0⟩, ⟨0, 0, 0⟩⟩

/-- The getBounds oracle that computes the solid's vertex bounding box, the
behavior the spec prescribes for the library method. -/
def aabbGetBounds : List Polygon → Option VBounds :=
  fun ps => Option.some (solidBounds ps)

/-- A scene element that is not part of the selection, for frame theorems. -/
def bystander : Cube := ⟨"bystander", ⟨5, 5, 5⟩, ⟨6, 6, 6⟩, ⟨0, 0, 0⟩, ⟨0, 0, 0⟩⟩

/-- A square polygon in the plane x = 16 spanning 0 <= y,z <= 4; its vertex
bounding box has zero extent on the x axis, so a grid derived from it has no
sample points, while the fixed default bounds scan the whole 0..16 range. -/
def bigSq : Polygon := mkPolygon [⟨16, 0, 0⟩, ⟨16, 4, 0⟩, ⟨16, 4, 4⟩, ⟨16, 0, 4⟩]

/-! Helper lemmas about the grid scan loop. -/

theorem loopIter_none_of_nonpos (mx step : ℚ) (hstep : step ≤ 0) :
    ∀ (n : ℕ) (x : ℚ), x < mx → loopIter mx step n x = Option.none := by
  intro n
  induction n with
  | zero => intro x hx; simp [loopIter, hx]
  | succ n ih =>
    intro x hx
    have hx2 : x + step < mx := by linarith
    simp [loopIter, hx, ih (x + step) hx2]

theorem loopIter_mem (mx step : ℚ) (hstep : 0 < step) :
    ∀ (n : ℕ) (x : ℚ) (xs : List ℚ), loopIter mx step n x = Option.some xs →
      ∀ a ∈ xs, x ≤ a ∧ a < mx := by
  intro n
  induction n with
  | zero =>
    intro x xs h a ha
    by_cases hx : x < mx
    · simp [loopIter, hx] at h
    · simp [loopIter, hx] at h
      subst h
      simp at ha
  | succ n ih =>
    intro x xs h a ha
    by_cases hx : x < mx
    · simp only [loopIter, if_pos hx, Option.map_eq_some'] at h
      obtain ⟨ys, hys, rfl⟩ := h
      rcases List.mem_cons.mp ha with rfl | hmem
      · exact ⟨le_refl a, hx⟩
      · obtain ⟨h1, h2⟩ := ih (x + step) ys hys a hmem
        exact ⟨by linarith, h2⟩
    · simp [loopIter, hx] at h
      subst h
      simp at ha

theorem loopIter_pairwise (mx step : ℚ) (hstep : 0 < step) :
    ∀ (n : ℕ) (x : ℚ) (xs : List ℚ), loopIter mx step n x = Option.some xs →
      xs.Pairwise (· < ·) := by
  intro n
  induction n with
  | zero =>
    intro x xs h
    by_cases hx : x < mx
    · simp [loopIter, hx] at h
    · simp [loopIter, hx] at h
      subst h
      simp
  | succ n ih =>
    intro x xs h
    by_cases hx : x < mx
    · simp only [loopIter, if_pos hx, Option.map_eq_some'] at h
      obtain ⟨ys, hys, rfl⟩ := h
      rw [List.pairwise_cons]
      constructor
      · intro b hb
        have := (loopIter_mem mx step hstep n (x + step) ys hys b hb).1
        linarith
      · exact ih (x + step) ys hys
    · simp [loopIter, hx] at h
      subst h
      simp

/-! Helper lemmas about the lexicographic structure of the triple loop. -/

theorem mem_yzGrid {a : Vec3 ℚ} {x : ℚ} {ys zs : List ℚ}
    (h : a ∈ ys.flatMap fun y => zs.map fun z => (⟨x, y, z⟩ : Vec3 ℚ)) :
    a.x = x := by
  simp only [List.mem_flatMap, List.mem_map] at h
  obtain ⟨y, _, z, _, rfl⟩ := h
  rfl

theorem pairwise_yzGrid (x : ℚ) {ys zs : List ℚ} (hy : ys.Pairwise (· < ·))
    (hz : zs.Pairwise (· < ·)) :
    (ys.flatMap fun y => zs.map fun z => (⟨x, y, z⟩ : Vec3 ℚ)).Pairwise vecLexLt := by
  induction ys with
  | nil => simp
  | cons y ys ih =>
    rw [List.flatMap_cons, List.pairwise_append]
    refine ⟨?_, ih hy.of_cons, ?_⟩
    · rw [List.pairwise_map]
      exact hz.imp fun hlt => Or.inr ⟨rfl, Or.inr ⟨rfl, hlt⟩⟩
    · intro a ha b hb
      simp only [List.mem_map] at ha
      obtain ⟨z, _, rfl⟩ := ha
      simp only [List.mem_flatMap, List.mem_map] at hb
      obtain ⟨y', hy', z', _, rfl⟩ := hb
      exact Or.inr ⟨rfl, Or.inl ((List.pairwise_cons.mp hy).1 y' hy')⟩

theorem pairwise_grid {xs ys zs : List ℚ} (hx : xs.Pairwise (· < ·))
    (hy : ys.Pairwise (· < ·)) (hz : zs.Pairwise (· < ·)) :
    (xs.flatMap fun x => ys.flatMap fun y => zs.map fun z =>
      (⟨x, y, z⟩ : Vec3 ℚ)).Pairwise vecLexLt := by
  induction xs with
  | nil => simp
  | cons x xs ih =>
    rw [List.flatMap_cons, List.pairwise_append]
    refine ⟨pairwise_yzGrid x hy hz, ih hx.of_cons, ?_⟩
    intro a ha b hb
    have h1 : a.x = x := mem_yzGrid ha
    simp only [List.mem_flatMap, List.mem_map] at hb
    obtain ⟨x', hx', y', hy', z', hz', rfl⟩ := hb
    exact Or.inl (by rw [h1]; exact (List.pairwise_cons.mp hx).1 x' hx')

theorem flatMap_sublist {α β : Type} (l : List α) (g h : α → List β)
    (H : ∀ a ∈ l, (g a).Sublist (h a)) : (l.flatMap g).Sublist (l.flatMap h) := by
  induction l with
  | nil => simp
  | cons a l ih =>
    rw [List.flatMap_cons, List.flatMap_cons]
    exact (H a (by simp)).append (ih fun b hb => H b (by simp [hb]))

theorem filterMap_map_sublist {α β γ : Type} (l : List α) (f : α → Option β)
    (m : β → γ) (g : α → γ) (H : ∀ a b, f a = Option.some b → m b = g a) :
    ((l.filterMap f).map m).Sublist (l.map g) := by
  induction l with
  | nil => simp
  | cons a l ih =>
    rw [List.map_cons]
    cases hfa : f a with
    | none =>
      rw [List.filterMap_cons_none hfa]
      exact ih.cons _
    | some b =>
      rw [List.filterMap_cons_some hfa, List.map_cons, H a b hfa]
      exact ih.cons₂ _

theorem voxelAt_from (polys : List Polygon) (step x y z : ℚ) (c : Cube)
    (h : voxelAt polys step x y z = Option.some c) : c.from' = ⟨x, y, z⟩ := by
  simp only [voxelAt] at h
  split at h
  · simp only [Option.some.injEq] at h
    subst h
    rfl
  · exact absurd h (by simp)

theorem out_pairwise (polys : List Polygon) (step : ℚ) {xs ys zs : List ℚ}
    (hx : xs.Pairwise (· < ·)) (hy : ys.Pairwise (· < ·))
    (hz : zs.Pairwise (· < ·)) :
    ((xs.flatMap fun x => ys.flatMap fun y => zs.filterMap fun z =>
        voxelAt polys step x y z).map Cube.from').Pairwise vecLexLt := by
  have hsub : ((xs.flatMap fun x => ys.flatMap fun y => zs.filterMap fun z =>
      voxelAt polys step x y z).map Cube.from').Sublist
      (xs.flatMap fun x => ys.flatMap fun y => zs.map fun z =>
        (⟨x, y, z⟩ : Vec3 ℚ)) := by
    rw [List.map_flatMap]
    apply flatMap_sublist
    intro x _
    rw [List.map_flatMap]
    apply flatMap_sublist
    intro y _
    exact filterMap_map_sublist zs _ _ _
      (fun z c h => voxelAt_from polys step x y z c h)
  exact List.Pairwise.sublist hsub (pairwise_grid hx hy hz)

/-! Helper lemmas for the zero-rotation transformation matrix. -/

theorem cosDeg_zero : cosDeg 0 = 1 := by
  simp [cosDeg]

theorem sinDeg_zero : sinDeg 0 = 0 := by
  simp [sinDeg]

theorem rotationX_one_zero : makeRotationX (1 : ℝ) 0 = 1 := by
  ext i j
  fin_cases i <;> fin_cases j <;>
    simp [makeRotationX, Matrix.one_apply, Matrix.vecHead, Matrix.vecTail]

theorem rotationY_one_zero : makeRotationY (1 : ℝ) 0 = 1 := by
  ext i j
  fin_cases i <;> fin_cases j <;>
    simp [makeRotationY, Matrix.one_apply, Matrix.vecHead, Matrix.vecTail]

theorem rotationZ_one_zero : makeRotationZ (1 : ℝ) 0 = 1 := by
  ext i j
  fin_cases i <;> fin_cases j <;>
    simp [makeRotationZ, Matrix.one_apply, Matrix.vecHead, Matrix.vecTail]

theorem translation_mul_inv (x y z : ℝ) :
    makeTranslation x y z * makeTranslation (-x) (-y) (-z) = 1 := by
  ext i j
  fin_cases i <;> fin_cases j <;>
    simp [makeTranslation, Matrix.mul_apply, Fin.sum_univ_four, Matrix.one_apply,
      Matrix.vecHead, Matrix.vecTail]

/-! Claim theorems. -/

/-- C1: the ray-polygon test of csgToCubes counts every ray-plane crossing
that passes the non-parallel and t > EPSILON checks, even when the
intersection point lies outside the polygon — the point-in-polygon condition
the claim requires is not implemented (the source's comments state it is
assumed).  For the unit square in the plane x = 1 and the sample point
(0, 5, 5), whose ray meets that plane at (1, 5, 5) far outside the square,
the code counts one intersection and the odd-parity rule classifies the
point inside, while the count with the spec-mandated point-in-polygon check
is zero. -/
theorem ray_count_ignores_point_in_polygon :
    countIntersections [sqPoly] ⟨0, 5, 5⟩ = 1 ∧
    countIntersections [sqPoly] ⟨0, 5, 5⟩ % 2 = 1 ∧
    specCountIntersections [sqPoly] ⟨0, 5, 5⟩ = 0 :=
  ⟨by rfl, by rfl, by rfl⟩

/-- C2: on the spec's concrete scenario (box A from (0,0,0) to (2,2,2), box
B from (1,1,1) to (3,3,3), operator subtract, resolution 1, bounds taken
from the result solid's vertices) the pipeline emits exactly the four unit
voxels of the x = 0 slab, not the seven claimed: the ray test ignores the
y and z coordinates for axis-aligned faces, so whole slabs are classified
uniformly. -/
theorem pipeline_scenario_four_voxels :
    pipelineVoxels 64 z0 z0 aabbGetBounds boxA boxB 1 =
      Option.some
        [⟨"CSG Voxel", ⟨0, 0, 0⟩, ⟨1, 1, 1⟩, ⟨0, 0, 0⟩, ⟨0, 0, 0⟩⟩,
         ⟨"CSG Voxel", ⟨0, 0, 1⟩, ⟨1, 1, 2⟩, ⟨0, 0, 0⟩, ⟨0, 0, 0⟩⟩,
         ⟨"CSG Voxel", ⟨0, 1, 0⟩, ⟨1, 2, 1⟩, ⟨0, 0, 0⟩, ⟨0, 0, 0⟩⟩,
         ⟨"CSG Voxel", ⟨0, 1, 1⟩, ⟨1, 2, 2⟩, ⟨0, 0, 0⟩, ⟨0, 0, 0⟩⟩] ∧
    ([⟨"CSG Voxel", ⟨0, 0, 0⟩, ⟨1, 1, 1⟩, ⟨0, 0, 0⟩, ⟨0, 0, 0⟩⟩,
      ⟨"CSG Voxel", ⟨0, 0, 1⟩, ⟨1, 1, 2⟩, ⟨0, 0, 0⟩, ⟨0, 0, 0⟩⟩,
      ⟨"CSG Voxel", ⟨0, 1, 0⟩, ⟨1, 2, 1⟩, ⟨0, 0, 0⟩, ⟨0, 0, 0⟩⟩,
      ⟨"CSG Voxel", ⟨0, 1, 1⟩, ⟨1, 2, 2⟩, ⟨0, 0, 0⟩, ⟨0, 0, 0⟩⟩] : List Cube).length ≠ 7 :=
  ⟨by rfl, by decide⟩

/-- C3 counterexample: a box with from == to on the x axis is converted by
cubeToCSG without any failure — the conversion performs no extent
validation and returns the usual six faces, all of whose vertices have
collapsed onto the plane x = 0. -/
theorem degenerate_box_converts_without_failure :
    (cubeToCSG z0 z0 degBox).length = 6 ∧
    ((cubeToCSG z0 z0 degBox).all fun p => p.vertices.all fun v => v.x == 0) = true :=
  ⟨by rfl, by rfl⟩

/-- C3 as amended: cubeToCSG performs no half-extent validation; every box,
degenerate or not, is converted to a six-polygon solid and the pipeline
proceeds to boolean and voxel work on it. -/
theorem cubeToCSG_always_returns_six_polygons (cosD sinD : ℚ → ℚ) (cube : Cube) :
    (cubeToCSG cosD sinD cube).length = 6 := by
  unfold cubeToCSG
  split <;> simp [transformPolys, translatePolys, csgCube]

/-- C4 counterexample: with resolution 0 the scan of the solid of box A
reports no error — after three hundred loop iterations the x loop is still
running (the model returns none, meaning the loop has not terminated), and
no InvalidResolution value exists anywhere in the code. -/
theorem zero_resolution_scan_never_returns :
    csgToCubes 300 (cubeToCSG z0 z0 boxA) Option.none 0 = Option.none := by
  have h := loopIter_none_of_nonpos 16 0 le_rfl 300 0 (by norm_num)
  simp [csgToCubes, defaultBounds, h]

/-- C4 as amended: csgToCubes performs no resolution validation; with
resolution <= 0 and a non-empty x range the grid scan never terminates
(no fuel makes it return), instead of failing with InvalidResolution at
stage entry. -/
theorem csgToCubes_nonpos_resolution_never_returns (fuel : ℕ)
    (polys : List Polygon) (gb : Option VBounds) (res : ℚ) (hres : res ≤ 0)
    (hne : (gb.getD defaultBounds).min.x < (gb.getD defaultBounds).max.x) :
    csgToCubes fuel polys gb res = Option.none := by
  have h := loopIter_none_of_nonpos (gb.getD defaultBounds).max.x res hres fuel
    (gb.getD defaultBounds).min.x hne
  simp [csgToCubes, h]

theorem csgToCubes_nonpos_resolution_never_returns_witness :
    (0 : ℚ) ≤ 0 ∧
    csgToCubes 7 [] (Option.some ⟨⟨0, 0, 0⟩, ⟨1, 1, 1⟩⟩) 0 = Option.none :=
  ⟨le_rfl, csgToCubes_nonpos_resolution_never_returns 7 []
    (Option.some ⟨⟨0, 0, 0⟩, ⟨1, 1, 1⟩⟩) 0 le_rfl (by norm_num)⟩

/-- C5: getTransformationMatrix returns exactly the product
T(pivot) * Rz(rz) * Ry(ry) * Rx(rx) * T(-pivot) of the claim — translate the
pivot to the origin, rotate about X then Y then Z, translate back — with the
rotation angles taken in degrees. -/
theorem getTransformationMatrix_is_conjugated_rotation (pivot rot : Vec3 ℝ) :
    getTransformationMatrix cosDeg sinDeg pivot rot =
      makeTranslation pivot.x pivot.y pivot.z *
        (makeRotationZ (cosDeg rot.z) (sinDeg rot.z) *
          (makeRotationY (cosDeg rot.y) (sinDeg rot.y) *
            (makeRotationX (cosDeg rot.x) (sinDeg rot.x) *
              makeTranslation (-pivot.x) (-pivot.y) (-pivot.z)))) := by
  simp [getTransformationMatrix, Matrix.mul_assoc]

/-- C6: with all-zero rotation angles the transformation matrix is exactly
the identity for every pivot, so applying it to a vertex returns that vertex
unchanged and skipping the rotation step (as cubeToCSG does when every
rotation component is zero) yields the same solid. -/
theorem zero_rotation_gives_identity (pivot : Vec3 ℝ) :
    getTransformationMatrix cosDeg sinDeg pivot ⟨0, 0, 0⟩ = 1 ∧
    ∀ v : Fin 4 → ℝ,
      (getTransformationMatrix cosDeg sinDeg pivot ⟨0, 0, 0⟩).mulVec v = v := by
  have hM : getTransformationMatrix cosDeg sinDeg pivot ⟨0, 0, 0⟩ = 1 := by
    simp [getTransformationMatrix, cosDeg_zero, sinDeg_zero, rotationX_one_zero,
      rotationY_one_zero, rotationZ_one_zero, translation_mul_inv]
  exact ⟨hM, fun v => by rw [hM, Matrix.one_mulVec]⟩

/-- C7 counterexample: for a solid whose vertex bounding box is the
degenerate slab x = 16, 0 <= y,z <= 4 and a library without getBounds, the
scan runs over the fixed default range 0..16 on every axis and emits 64
voxels at resolution 4, while a grid derived from the solid's vertex
bounding box has no sample points at all: the grid is not derived from the
solid's bounding box. -/
theorem voxel_grid_uses_fixed_default_bounds :
    (csgToCubes 20 [bigSq] Option.none 4).map List.length = Option.some 64 ∧
    (csgToCubes 20 [bigSq] (Option.some (solidBounds [bigSq])) 4).map
      List.length = Option.some 0 ∧
    solidBounds [bigSq] = ⟨⟨16, 0, 0⟩, ⟨16, 4, 4⟩⟩ :=
  ⟨by rfl, by rfl, by rfl⟩

/-- C7 as amended: the scan bounds are the solid's getBounds result when the
library provides one and the fixed default 0..16 otherwise (the second
draft always uses the fixed default); every emitted voxel's corner lies in
the half-open range [min, max) of whichever bounds were selected, on every
axis. -/
theorem voxel_samples_within_selected_bounds (fuel : ℕ) (polys : List Polygon)
    (gb : Option VBounds) (res : ℚ) (cubes : List Cube) (c : Cube)
    (hres : 0 < res) (hout : csgToCubes fuel polys gb res = Option.some cubes)
    (hc : c ∈ cubes) :
    ((gb.getD defaultBounds).min.x ≤ c.from'.x ∧
      c.from'.x < (gb.getD defaultBounds).max.x) ∧
    ((gb.getD defaultBounds).min.y ≤ c.from'.y ∧
      c.from'.y < (gb.getD defaultBounds).max.y) ∧
    ((gb.getD defaultBounds).min.z ≤ c.from'.z ∧
      c.from'.z < (gb.getD defaultBounds).max.z) := by
  simp only [csgToCubes] at hout
  split at hout
  · exact absurd hout (by simp)
  case _ xs hxs =>
    split at hout
    · exact absurd hout (by simp)
    case _ ys hys =>
      split at hout
      · exact absurd hout (by simp)
      case _ zs hzs =>
        simp only [Option.some.injEq] at hout
        subst hout
        simp only [List.mem_flatMap, List.mem_filterMap] at hc
        obtain ⟨x, hx, y, hy, z, hz, hvox⟩ := hc
        have hfrom := voxelAt_from polys res x y z c hvox
        have hxs2 : x ∈ xs := hx
        have hxe : ¬xs.isEmpty := by
          cases xs
          · simp at hxs2
          · simp
        have hys2 : loopIter (gb.getD defaultBounds).max.y res fuel
            (gb.getD defaultBounds).min.y = Option.some ys := by
          rw [if_neg (by simpa using hxe)] at hys
          exact hys
        have hye : ¬ys.isEmpty := by
          cases ys
          · simp at hy
          · simp
        have hzs2 : loopIter (gb.getD defaultBounds).max.z res fuel
            (gb.getD defaultBounds).min.z = Option.some zs := by
          rw [if_neg (by simp [hxe, hye])] at hzs
          exact hzs
        have h1 := loopIter_mem _ res hres fuel _ xs hxs x hx
        have h2 := loopIter_mem _ res hres fuel _ ys hys2 y hy
        have h3 := loopIter_mem _ res hres fuel _ zs hzs2 z hz
        rw [hfrom]
        exact ⟨h1, h2, h3⟩

theorem voxel_samples_within_selected_bounds_witness :
    ((Option.some unitB).getD defaultBounds).min.x ≤ voxel000.from'.x ∧
    voxel000.from'.x < ((Option.some unitB).getD defaultBounds).max.x :=
  (voxel_samples_within_selected_bounds 5 [sqPoly] (Option.some unitB) 1
    [voxel000] voxel000 (by norm_num) (by rfl) (by simp)).1

/-- C8: csgToCubes is a pure function of its inputs — two invocations with
identical arguments give identical output sequences — and the output order
is deterministic and lexicographic: the emitted voxels' corners are
strictly increasing in the lexicographic order on (x, y, z), matching the
x-outermost, z-innermost loop nest. -/
theorem csgToCubes_deterministic_lexicographic (fuel : ℕ)
    (polys : List Polygon) (gb : Option VBounds) (res : ℚ) (cubes : List Cube)
    (hres : 0 < res) (hout : csgToCubes fuel polys gb res = Option.some cubes) :
    csgToCubes fuel polys gb res = csgToCubes fuel polys gb res ∧
    (cubes.map Cube.from').Pairwise vecLexLt := by
  refine ⟨rfl, ?_⟩
  simp only [csgToCubes] at hout
  split at hout
  · exact absurd hout (by simp)
  case _ xs hxs =>
    split at hout
    · exact absurd hout (by simp)
    case _ ys hys =>
      split at hout
      · exact absurd hout (by simp)
      case _ zs hzs =>
        simp only [Option.some.injEq] at hout
        subst hout
        have hpx : xs.Pairwise (· < ·) :=
          loopIter_pairwise _ res hres fuel _ xs hxs
        have hpy : ys.Pairwise (· < ·) := by
          split at hys
          · simp only [Option.some.injEq] at hys
            subst hys
            simp
          · exact loopIter_pairwise _ res hres fuel _ ys hys
        have hpz : zs.Pairwise (· < ·) := by
          split at hzs
          · simp only [Option.some.injEq] at hzs
            subst hzs
            simp
          · exact loopIter_pairwise _ res hres fuel _ zs hzs
        exact out_pairwise polys res hpx hpy hpz

theorem csgToCubes_deterministic_lexicographic_witness :
    csgToCubes 5 [sqPoly] (Option.some unitB) 1 =
      csgToCubes 5 [sqPoly] (Option.some unitB) 1 ∧
    (([voxel000] : List Cube).map Cube.from').Pairwise vecLexLt :=
  csgToCubes_deterministic_lexicographic 5 [sqPoly] (Option.some unitB) 1
    [voxel000] (by norm_num) (by rfl)

/-- C9: the geometry pipeline reads only the from, to, origin and rotation
fields of its input boxes (renaming a box changes nothing), every
non-selected element of the host list survives an executeCSGOperation call
unchanged, and when the pipeline produces no result (any failure or
non-termination happens before the edit is applied) the host list is left
exactly as it was. -/
theorem pipeline_reads_only_and_frame (fuel : ℕ) (cosD sinD : ℚ → ℚ)
    (getB : List Polygon → Option VBounds) (st : List Cube) (A B : Cube)
    (mode : CSGMode) (res : ℚ) (nA nB : String) :
    pipelineVoxels fuel cosD sinD getB { A with name := nA }
      { B with name := nB } res = pipelineVoxels fuel cosD sinD getB A B res ∧
    (∀ e ∈ st, e ≠ A → e ≠ B →
      e ∈ executeCSG fuel cosD sinD getB st A B mode res) ∧
    (pipelineVoxels fuel cosD sinD getB A B res = Option.none →
      executeCSG fuel cosD sinD getB st A B mode res = st) := by
  refine ⟨rfl, ?_, ?_⟩
  · intro e he h1 h2
    cases mode with
    | subtract =>
      unfold executeCSG
      cases hp : pipelineVoxels fuel cosD sinD getB A B res with
      | none => exact he
      | some cubes =>
        exact List.mem_append_left _ (List.mem_filter.mpr ⟨he, by simp [h1, h2]⟩)
    | union => exact he
    | intersect => exact he
  · intro h
    cases mode with
    | subtract => unfold executeCSG; rw [h]
    | union => rfl
    | intersect => rfl

theorem pipeline_reads_only_and_frame_witness :
    pipelineVoxels 0 z0 z0 aabbGetBounds { boxA with name := "A2" }
      { boxB with name := "B2" } 1 =
      pipelineVoxels 0 z0 z0 aabbGetBounds boxA boxB 1 ∧
    bystander ∈ executeCSG 0 z0 z0 aabbGetBounds [bystander] boxA boxB
      CSGMode.subtract 1 ∧
    executeCSG 0 z0 z0 aabbGetBounds [bystander] boxA boxB
      CSGMode.subtract 1 = [bystander] := by
  have h := pipeline_reads_only_and_frame 0 z0 z0 aabbGetBounds [bystander]
    boxA boxB CSGMode.subtract 1 "A2" "B2"
  exact ⟨h.1, h.2.1 bystander (by simp) (by decide) (by decide), h.2.2 (by rfl)⟩

/-- C10: the voxelization loop embedded by loopIter does not terminate for
step <= 0 whenever the axis range is non-empty (min < max): the loop
variable never advances past the upper bound, so no iteration budget makes
the loop finish and csgToCubes is total only under the precondition
step > 0. -/
theorem scan_loop_diverges_on_nonpos_step (mx step x : ℚ) (hstep : step ≤ 0)
    (hx : x < mx) : ∀ fuel : ℕ, loopIter mx step fuel x = Option.none :=
  fun fuel => loopIter_none_of_nonpos mx step hstep fuel x hx

theorem scan_loop_diverges_on_nonpos_step_witness :
    (0 : ℚ) ≤ 0 ∧ (0 : ℚ) < 2 ∧ loopIter 2 0 9 0 = Option.none :=
  ⟨le_rfl, by norm_num, scan_loop_diverges_on_nonpos_step 2 0 0 le_rfl (by norm_num) 9⟩

end Meshplus
